import Mathlib

/-!
Verification development for a small Redis-like server (JavaScript source).
The definitions below are a shallow embedding of the `Parser` class of the
repository: the RESP codec (`serialize`, `parserSerializeString`), the keyed
store, the command handlers and the blocking-pop machinery.  JavaScript
strings are modelled one `Char` per byte (the repository only exercises
ASCII data), JavaScript numbers as exact rationals (`JNum`), thrown
exceptions as `Except.error`, and the event loop (`setImmediate` /
`setTimeout` / `EventEmitter.once`) as explicit pending-emit, timer and
listener queues whose entries trace steps discharge one at a time.
-/

namespace Redis

/-- Model of the character produced for a decimal digit `d` (`0 ≤ d ≤ 9`). -/
def digitChar (d : Nat) : Char := Char.ofNat (48 + d)

/-- Fuel-driven base-10 printer used to model JavaScript number-to-string
interpolation for naturals; the fuel `natToChars` supplies is always enough. -/
def natToCharsAux : Nat → Nat → List Char
  | 0, _ => []
  | f + 1, n => if n < 10 then [digitChar n] else natToCharsAux f (n / 10) ++ [digitChar (n % 10)]

/-- Base-10 digits of `n`, most significant first (model of `${n}` in JS). -/
def natToChars (n : Nat) : List Char := natToCharsAux (n + 1) n

/-- `natToChars` packaged as a `String`. -/
def natStr (n : Nat) : String := String.mk (natToChars n)

/-- Whitespace as skipped by JavaScript numeric parsing. -/
def isWsChar (c : Char) : Bool :=
  c = ' ' || c = '\t' || c = '\n' || c = '\r' || c = '\x0b' || c = '\x0c'

/-- Value of a digit list, most significant first. -/
def digitsVal (ds : List Char) : Nat :=
  ds.foldl (fun a c => 10 * a + (c.toNat - 48)) 0

/-- Longest leading run of decimal digits, `none` when there is none. -/
def digitsLead (cs : List Char) : Option Nat :=
  if (cs.takeWhile Char.isDigit).isEmpty then none
  else some (digitsVal (cs.takeWhile Char.isDigit))

/-- Model of JavaScript `parseInt(s, 10)`: skip whitespace, optional sign,
then the longest digit run; `NaN` is modelled as `none`. -/
def jsParseIntChars (cs : List Char) : Option Int :=
  match cs.dropWhile isWsChar with
  | [] => none
  | c :: t =>
    if c = '-' then (digitsLead t).map (fun n => -(n : Int))
    else if c = '+' then (digitsLead t).map (fun n => (n : Int))
    else (digitsLead (c :: t)).map (fun n => (n : Int))

/-- `parseInt` on a Lean `String`. -/
def jsParseInt (s : String) : Option Int := jsParseIntChars s.data

/-- `parseInt` applied to a possibly-`undefined` argument
(`parseInt(undefined, 10)` is `NaN`). -/
def jsParseIntOpt : Option String → Option Int
  | none => none
  | some s => jsParseInt s

/-- Exact rational model of a JavaScript number, kept in lowest terms with a
positive denominator by the smart constructors below. -/
structure JNum where
  num : Int
  den : Nat
deriving DecidableEq

instance (n : Nat) : OfNat JNum n := ⟨⟨n, 1⟩⟩

/-- Euclid's algorithm with explicit fuel, so that it reduces in the kernel. -/
def gcdAux : Nat → Nat → Nat → Nat
  | 0, a, _ => a
  | f + 1, a, b => if b = 0 then a else gcdAux f b (a % b)

/-- Greatest common divisor (equals `Nat.gcd b a`). -/
def ngcd (a b : Nat) : Nat := gcdAux (a + b + 1) a b

/-- Build a `JNum` in lowest terms from a numerator and a positive denominator. -/
def jnorm (n : Int) (d : Nat) : JNum :=
  let g := ngcd n.natAbs d
  if g = 0 then ⟨n, d⟩
  else if n < 0 then ⟨-((n.natAbs / g : Nat) : Int), d / g⟩ else ⟨((n.natAbs / g : Nat) : Int), d / g⟩

/-- The number `0` test (JavaScript falsiness of a non-`NaN` number). -/
def JNum.isZero (q : JNum) : Bool := q.num = 0

/-- `q < 0` (the denominator is positive by construction). -/
def JNum.isNeg (q : JNum) : Bool := q.num < 0

/-- `q > 0`. -/
def JNum.isPos (q : JNum) : Bool := 0 < q.num

/-- Unary minus. -/
def JNum.neg (q : JNum) : JNum := ⟨-q.num, q.den⟩

/-- `q + 1` (stays in lowest terms when `q` is). -/
def JNum.succ (q : JNum) : JNum := ⟨q.num + q.den, q.den⟩

/-- Integer floor. -/
def JNum.floor (q : JNum) : Int := q.num.fdiv q.den

/-- `q - floor q`. -/
def JNum.fracPart (q : JNum) : JNum := ⟨q.num - q.floor * q.den, q.den⟩

/-- `q * 10`. -/
def JNum.mulTen (q : JNum) : JNum := ⟨q.num * 10, q.den⟩

/-- Natural-number literal as a `JNum`. -/
def JNum.ofNat (n : Nat) : JNum := ⟨n, 1⟩

/-- Magnitude part of JavaScript `Number(...)` coercion on the decimal-literal
fragment: `digits`, `digits.digits`, `digits.` or `.digits`. -/
def jsNumMag (cs : List Char) : Option JNum :=
  match cs.dropWhile Char.isDigit with
  | [] =>
    if (cs.takeWhile Char.isDigit).isEmpty then none
    else some ⟨(digitsVal (cs.takeWhile Char.isDigit) : Int), 1⟩
  | '.' :: frac =>
    if frac.all Char.isDigit ∧ ¬((cs.takeWhile Char.isDigit).isEmpty ∧ frac.isEmpty) then
      some (jnorm ((digitsVal (cs.takeWhile Char.isDigit) : Int) * ((10 : Int) ^ frac.length)
                     + (digitsVal frac : Int))
                  (10 ^ frac.length))
    else none
  | _ => none

/-- Signed body of `Number(...)`. -/
def jsNumBody : List Char → Option JNum
  | [] => jsNumMag []
  | c :: t =>
    if c = '-' then (jsNumMag t).map JNum.neg
    else if c = '+' then jsNumMag t
    else jsNumMag (c :: t)

/-- Model of JavaScript `Number(s)` on decimal literals: a fully trimmed
empty string is `0`, otherwise an optionally signed decimal literal;
`NaN` is modelled as `none`. -/
def jsNumberChars (cs : List Char) : Option JNum :=
  if (((cs.dropWhile isWsChar).reverse.dropWhile isWsChar).reverse).isEmpty then some 0
  else jsNumBody (((cs.dropWhile isWsChar).reverse.dropWhile isWsChar).reverse)

/-- `Number(...)` on a Lean `String`. -/
def jsNumber (s : String) : Option JNum := jsNumberChars s.data

/-- Fuel-driven printer for the fractional digits of a rational in `[0, 1)`. -/
def fracDigitsAux : Nat → JNum → List Char
  | 0, _ => []
  | f + 1, r =>
    if r.isZero then []
    else digitChar r.mulTen.floor.toNat :: fracDigitsAux f r.mulTen.fracPart

/-- Decimal rendering of a nonnegative rational (model of JavaScript number
display for the finite-decimal values the code produces). -/
def ratStrNN (q : JNum) : String :=
  if q.fracPart.isZero then natStr q.floor.toNat
  else natStr q.floor.toNat ++ "." ++ String.mk (fracDigitsAux 40 q.fracPart)

/-- Decimal rendering of a rational, used to model `${number}`. -/
def ratStr (q : JNum) : String :=
  if q.isNeg then "-" ++ ratStrNN q.neg else ratStrNN q

/-- The JavaScript values that ever reach `serialize` in the repository. -/
inductive JsVal where
  | vnull : JsVal
  | vundefined : JsVal
  | vstr (s : String) : JsVal
  | vnum (q : JNum) : JsVal
  | varr (l : List JsVal) : JsVal

/-- `data.startsWith("+") || data.startsWith("-")`. -/
def sigil (s : String) : Bool :=
  match s.data with
  | c :: _ => c = '+' || c = '-'
  | [] => false

mutual

/-- Model of `Parser.serialize` (src/unnamed/part_002 lines 22-46):
RESP encoding of a response value.  `Buffer.byteLength(data, "utf8")` is
modelled as the character count (one byte per char). -/
def serialize : JsVal → String
  | .vnull => "$-1\r\n"
  | .vstr s =>
    if sigil s then s ++ "\r\n"
    else "$" ++ natStr s.length ++ "\r\n" ++ s ++ "\r\n"
  | .vnum q => ":" ++ ratStr q ++ "\r\n"
  | .varr l => "*" ++ natStr l.length ++ "\r\n" ++ serializeItems l
  | .vundefined => "-ERR Unsupported data type\r\n"

/-- The loop body of `serialize`'s array branch. -/
def serializeItems : List JsVal → String
  | [] => ""
  | x :: xs => serialize x ++ serializeItems xs

end

instance {ε α : Type} [DecidableEq ε] [DecidableEq α] : DecidableEq (Except ε α) := fun x y =>
  match x, y with
  | .error a, .error b =>
    if h : a = b then .isTrue (by rw [h]) else .isFalse (fun hh => h (Except.error.inj hh))
  | .ok a, .ok b =>
    if h : a = b then .isTrue (by rw [h]) else .isFalse (fun hh => h (Except.ok.inj hh))
  | .error _, .ok _ => .isFalse (fun hh => Except.noConfusion hh)
  | .ok _, .error _ => .isFalse (fun hh => Except.noConfusion hh)

/-! ## The RESP request decoder (`parserSerializeString`) -/

/-- Position of the first `"\r\n"` in a character list, if any. -/
def findCRLF0 : List Char → Option Nat
  | [] => none
  | [_] => none
  | a :: b :: rest =>
    if a = '\r' ∧ b = '\n' then some 0 else (findCRLF0 (b :: rest)).map (· + 1)

/-- Model of `string.indexOf("\r\n", index)`: absolute position of the first
CRLF at or after `i` (a negative `i` searches from the start, as in JS). -/
def findCRLF (s : List Char) (i : Int) : Option Nat :=
  (findCRLF0 (s.drop i.toNat)).map (· + i.toNat)

/-- Model of `string.substring(a, b)`: both ends clamped into `[0, length]`
and swapped if out of order. -/
def jsSubstring (s : List Char) (a b : Int) : List Char :=
  let len : Int := s.length
  let a2 := (min (max a 0) len).toNat
  let b2 := (min (max b 0) len).toNat
  (s.drop (min a2 b2)).take (max a2 b2 - min a2 b2)

/-- `readUntilCRLF` from `parserSerializeString`: the text before the next
CRLF together with the updated index. -/
def readUntilCRLF (s : List Char) (i : Int) : Except String (List Char × Int) :=
  match findCRLF s i with
  | none => .error "Invalid RESP format: Missing CRLF terminator."
  | some e => .ok (jsSubstring s i e, (e : Int) + 2)

/-- `parseBulkString` from `parserSerializeString`: a `$`-prefixed length
header, then exactly that many bytes, then a mandatory CRLF. -/
def parseBulkString (s : List Char) (i : Int) : Except String (List Char × Int) := do
  let (header, i1) ← readUntilCRLF s i
  match header with
  | c :: lenChars =>
    if c = '$' then
      match jsParseIntChars lenChars with
      | none => .error "Invalid RESP bulk string length."
      | some len =>
        let bulk := jsSubstring s i1 (i1 + len)
        if jsSubstring s (i1 + len) (i1 + len + 2) = ['\r', '\n'] then
          .ok (bulk, i1 + len + 2)
        else .error "Invalid RESP format: Missing CRLF after bulk string data."
    else .error ("Expected bulk string header, but got: " ++ String.mk header)
  | [] => .error ("Expected bulk string header, but got: " ++ String.mk [])

/-- The element loop of `parserSerializeString`: read `n` bulk strings. -/
def decodeItems : Nat → List Char → Int → Except String (List (List Char))
  | 0, _, _ => .ok []
  | n + 1, s, i => do
    let (b, i2) ← parseBulkString s i
    let rest ← decodeItems n s i2
    .ok (b :: rest)

/-- Model of `Parser.parserSerializeString` (src/unnamed/part_002 lines
56-110): decode one RESP request (`*<n>` header then `n` bulk strings). -/
def parserSerializeString (str : String) : Except String (List String) := do
  let (arrayHeader, i1) ← readUntilCRLF str.data 0
  match arrayHeader with
  | c :: nChars =>
    if c = '*' then
      match jsParseIntChars nChars with
      | none => .error "Invalid RESP array length."
      | some n => (decodeItems n.toNat str.data i1).map (fun l => l.map String.mk)
    else .error "Expected array header, but got a different type."
  | [] => .error "Expected array header, but got a different type."

/-! ## The store, the server state, and the command handlers -/

/-- A stored value: `SET` stores strings, `INCR` stores numbers, and the list
commands store arrays of strings. -/
inductive StoredVal where
  | scalar (s : String) : StoredVal
  | num (q : JNum) : StoredVal
  | list (l : List String) : StoredVal
deriving DecidableEq

/-- One slot of `this.database`: `{ value, expire }`.  `none` models both
`null` and an absent `expire` field (observably equivalent in the code). -/
structure Entry where
  value : StoredVal
  expire : Option Int
deriving DecidableEq

/-- Lookup in a string-keyed JavaScript object modelled as an assoc list. -/
def alGet {β : Type} : List (String × β) → String → Option β
  | [], _ => none
  | (k2, v) :: t, k => if k2 = k then some v else alGet t k

/-- Property assignment `obj[k] = v` (overwrites in place, else appends). -/
def alSet {β : Type} : List (String × β) → String → β → List (String × β)
  | [], k, v => [(k, v)]
  | (k2, v2) :: t, k, v => if k2 = k then (k, v) :: t else (k2, v2) :: alSet t k v

/-- Property deletion `delete obj[k]`. -/
def alDel {β : Type} : List (String × β) → String → List (String × β)
  | [], _ => []
  | (k2, v2) :: t, k => if k2 = k then t else (k2, v2) :: alDel t k

/-- The whole observable server state: the parser's `database` and `socktes`
fields, plus an explicit model of the event loop — armed `once` listeners,
the `setImmediate` queue (`pending`), armed `setTimeout` deadlines, and the
log of all `socket.write` calls made from inside handlers and callbacks. -/
structure SState where
  db : List (String × Entry)
  socktes : List (String × List Nat)
  listeners : List String
  pending : List String
  timers : List (String × Nat)
  writes : List (Nat × String)
deriving DecidableEq

/-- The state of a freshly constructed `Parser`. -/
def initState : SState := ⟨[], [], [], [], [], []⟩

/-- JavaScript property key for a possibly-`undefined` argument
(`obj[undefined]` reads property `"undefined"`). -/
def jsKey : Option String → String
  | some s => s
  | none => "undefined"

/-- Falsiness of a possibly-`undefined` string (`!x`). -/
def jsFalsyOpt : Option String → Bool
  | none => true
  | some s => s = ""

/-- `s.toUpperCase()` (ASCII). -/
def jsToUpper (s : String) : String := String.mk (s.data.map Char.toUpper)

/-- `String(value)` for stored values. -/
def jsStringOfVal : StoredVal → String
  | .scalar s => s
  | .num q => ratStr q
  | .list l => String.intercalate "," l

/-- `Number(value)` for stored values (`Number` of an array coerces through
its comma join: `[]` gives `0`, one element coerces alone, more are `NaN`). -/
def jsNumberOfVal : StoredVal → Option JNum
  | .scalar s => jsNumber s
  | .num q => some q
  | .list [] => some 0
  | .list [x] => jsNumber x
  | .list (_ :: _ :: _) => none

/-- The value a popped list head contributes (`undefined` when empty). -/
def jsValOfPop : Option String → JsVal
  | some s => .vstr s
  | none => .vundefined

/-- Model of JavaScript `Array.prototype.slice(s, e)`. -/
def jsSliceList {α : Type} (l : List α) (s e : Int) : List α :=
  let len : Int := l.length
  let s2 := (if s < 0 then max (len + s) 0 else min s len).toNat
  let e2 := (if e < 0 then max (len + e) 0 else min e len).toNat
  (l.drop s2).take (e2 - s2)

/-- Model of `handleEcho` (part_002 lines 117-120). -/
def handleEcho (args : List String) : String :=
  "+" ++ (args[0]?).getD "" ++ "\r\n"

/-- Model of `handlePing` (part_002 lines 126-128). -/
def handlePing : String := "+PONG\r\n"

/-- Model of `handleSet` (part_002 lines 135-165).  `now` stands for
`Date.now()` at the moment the command runs. -/
def handleSet (now : Int) (st : SState) (args : List String) : String × SState :=
  let key := args[0]?
  let value := args[1]?
  let setCommand := args[2]?
  let nextArg := args[3]?
  let setComm := match setCommand with
    | some s => jsToUpper s
    | none => ""
  if jsFalsyOpt key || jsFalsyOpt value then
    ("-ERR wrong number of arguments for \x27set\x27 command\r\n", st)
  else
    let stored : Option Int → String × SState := fun expire =>
      ("+OK\r\n", { st with db := alSet st.db (jsKey key) ⟨.scalar (value.getD ""), expire⟩ })
    if setComm = "EX" then
      match jsParseIntOpt nextArg with
      | some seconds =>
        if seconds ≤ 0 then ("-ERR value is not an integer or out of range\r\n", st)
        else stored (some (now + seconds * 1000))
      | none => ("-ERR value is not an integer or out of range\r\n", st)
    else if setComm = "PX" then
      match jsParseIntOpt nextArg with
      | some milliseconds =>
        if milliseconds ≤ 0 then ("-ERR value is not an integer or out of range\r\n", st)
        else stored (some (now + milliseconds))
      | none => ("-ERR value is not an integer or out of range\r\n", st)
    else stored none

/-- Model of `handleGet` (part_002 lines 172-188): wrong-type check first,
then the lazy-expiry check `Date.now() > entry.expire`, else the value. -/
def handleGet (now : Int) (st : SState) (args : List String) : String × SState :=
  let getKey := jsKey args[0]?
  match alGet st.db getKey with
  | none => ("$-1\r\n", st)
  | some entry =>
    match entry.value with
    | .list _ => ("-ERR WRONGTYPE Operation against a key holding the wrong kind of value\r\n", st)
    | v =>
      match entry.expire with
      | some t =>
        if now > t then ("$-1\r\n", { st with db := alDel st.db getKey })
        else (serialize (.vstr (jsStringOfVal v)), st)
      | none => (serialize (.vstr (jsStringOfVal v)), st)

/-- The waiter-notification step shared by `handleRpush` and `handleLpush`:
when the key has a non-empty socket queue, a `data:` emit is scheduled with
`setImmediate` (modelled by appending to the `pending` queue). -/
def notifyPush (st : SState) (listName : String) : SState :=
  match alGet st.socktes listName with
  | some q => if 0 < q.length then { st with pending := st.pending ++ [listName] } else st
  | none => st

/-- Model of `handleRpush` (part_002 lines 195-208).  `value.push(...)` on a
string or number value is a thrown `TypeError`. -/
def handleRpush (st : SState) (args : List String) : Except String (String × SState) :=
  let listName := jsKey args[0]?
  let listValues := args.drop 1
  match alGet st.db listName with
  | some entry =>
    match entry.value with
    | .list l =>
      let l2 := l ++ listValues
      let st2 := notifyPush { st with db := alSet st.db listName ⟨.list l2, entry.expire⟩ } listName
      .ok (serialize (.vnum (.ofNat l2.length)), st2)
    | _ => .error "TypeError: push is not a function"
  | none =>
    let st2 := notifyPush { st with db := alSet st.db listName ⟨.list listValues, none⟩ } listName
    .ok (serialize (.vnum (.ofNat listValues.length)), st2)

/-- Model of `handleLpush` (part_002 lines 215-230): the pushed values are
reversed and prepended as a block.  Spreading a stored string spreads its
characters; spreading a stored number is a thrown `TypeError`. -/
def handleLpush (st : SState) (args : List String) : Except String (String × SState) :=
  let listName := jsKey args[0]?
  let listValues := args.drop 1
  match alGet st.db listName with
  | some entry =>
    match entry.value with
    | .list l =>
      let l2 := listValues.reverse ++ l
      let st2 := notifyPush { st with db := alSet st.db listName ⟨.list l2, entry.expire⟩ } listName
      .ok (serialize (.vnum (.ofNat l2.length)), st2)
    | .scalar s =>
      let l2 := listValues.reverse ++ s.data.map (fun c => String.mk [c])
      let st2 := notifyPush { st with db := alSet st.db listName ⟨.list l2, entry.expire⟩ } listName
      .ok (serialize (.vnum (.ofNat l2.length)), st2)
    | .num _ => .error "TypeError: spread of a number is not iterable"
  | none =>
    let l2 := listValues.reverse
    let st2 := notifyPush { st with db := alSet st.db listName ⟨.list l2, none⟩ } listName
    .ok (serialize (.vnum (.ofNat l2.length)), st2)

/-- Model of `handleLrange` (part_002 lines 237-263). -/
def handleLrange (st : SState) (args : List String) : Except String (String × SState) :=
  let lName := args[0]?
  if jsFalsyOpt lName then .ok ("-ERR wrong number of arguments for LRANGE", st)
  else
    match jsParseIntOpt args[1]?, jsParseIntOpt args[2]? with
    | some start, some endv =>
      match alGet st.db (jsKey lName) with
      | none => .ok (serialize (.varr []), st)
      | some entry =>
        match entry.value with
        | .list l =>
          let len : Int := l.length
          let s2 := if start < 0 then max (len + start) 0 else start
          let e2 := if endv < 0 then len + endv else endv
          if s2 ≥ len ∨ s2 > e2 then .ok (serialize (.varr []), st)
          else .ok (serialize (.varr ((jsSliceList l s2 (min len (e2 + 1))).map .vstr)), st)
        | .scalar str =>
          let len : Int := str.length
          let s2 := if start < 0 then max (len + start) 0 else start
          let e2 := if endv < 0 then len + endv else endv
          if s2 ≥ len ∨ s2 > e2 then .ok (serialize (.varr []), st)
          else .ok (serialize (.vstr (String.mk (jsSliceList str.data s2 (min len (e2 + 1))))), st)
        | .num _ => .error "TypeError: slice is not a function"
    | _, _ => .ok ("-ERR value is not an integer or out of range", st)

/-- Model of `handleLlen` (part_002 lines 270-280).  `value.length` of a
stored number is `undefined`, which `serialize` reports as unsupported. -/
def handleLlen (st : SState) (args : List String) : String × SState :=
  let listName := args[0]?
  if jsFalsyOpt listName then ("-ERR wrong number of arguments for LLEN", st)
  else
    match alGet st.db (jsKey listName) with
    | none => (serialize (.vnum 0), st)
    | some entry =>
      match entry.value with
      | .list l => (serialize (.vnum (.ofNat l.length)), st)
      | .scalar s => (serialize (.vnum (.ofNat s.length)), st)
      | .num _ => (serialize .vundefined, st)

/-- `splice(0, deleteCount)`'s element count: the string argument is coerced
with `Number`, `NaN` and negatives take nothing, fractions truncate. -/
def spliceCount (s : String) : Nat :=
  match jsNumber s with
  | none => 0
  | some q => if q.isPos then q.floor.toNat else 0

/-- The `value.shift()` branch shared by `handleLpop`'s no-count path. -/
def lpopShift (st : SState) (key : String) (entry : Entry) : Except String (String × SState) :=
  match entry.value with
  | .list l =>
    .ok (serialize (jsValOfPop l.head?), { st with db := alSet st.db key ⟨.list l.tail, entry.expire⟩ })
  | _ => .error "TypeError: shift is not a function"

/-- Model of `handleLpop` (part_002 lines 287-299): reads
`this.database[listName].value` unconditionally, so a missing key is a
thrown `TypeError`. -/
def handleLpop (st : SState) (args : List String) : Except String (String × SState) :=
  let listName := args[0]?
  let deleteCount := args[1]?
  if jsFalsyOpt listName then .ok ("-ERR wrong number of arguments for LPOP", st)
  else
    match alGet st.db (jsKey listName) with
    | none => .error "TypeError: cannot read value of undefined"
    | some entry =>
      if jsFalsyOpt deleteCount then lpopShift st (jsKey listName) entry
      else
        match entry.value with
        | .list l =>
          let n := spliceCount (deleteCount.getD "")
          .ok (serialize (.varr ((l.take n).map .vstr)),
               { st with db := alSet st.db (jsKey listName) ⟨.list (l.drop n), entry.expire⟩ })
        | _ => .error "TypeError: splice is not a function"

/-- Model of `handleIncr` (part_002 lines 340-357): `Number` coercion of the
current value, the `isNaN` error check, the truthiness-guarded increment,
and an unconditional store of `{ value: num, expire: null }`. -/
def handleIncr (st : SState) (args : List String) : String × SState :=
  let key := jsKey args[0]?
  match alGet st.db key with
  | none =>
    (serialize (.vnum 1), { st with db := alSet st.db key ⟨.num 1, none⟩ })
  | some entry =>
    match jsNumberOfVal entry.value with
    | none => (serialize (.vstr "-ERR value is not an integer or out of range"), st)
    | some q =>
      let n : JNum := if q.isZero then 1 else q.succ
      (serialize (.vnum n), { st with db := alSet st.db key ⟨.num n, none⟩ })

/-- `data.value.length > 0` in `handleBLpop`: a string's length is its
character count and a number's `length` is `undefined` (never `> 0`). -/
def vlenGtZero : StoredVal → Bool
  | .list l => 0 < l.length
  | .scalar s => 0 < s.length
  | .num _ => false

/-- `timeout > 0` where `timeout` is the raw (possibly absent) argument:
JavaScript coerces the string with `Number`; `NaN` comparisons are false. -/
def blpopTimeoutArmed : Option String → Bool
  | none => false
  | some s =>
    match jsNumber s with
    | some q => q.isPos
    | none => false

/-- The blocking path of `handleBLpop`: enqueue the socket, arm the deadline
timer when `timeout > 0`, and register the single `once` listener when this
socket is the first waiter for the key. -/
def enqueueWaiter (st : SState) (listName : String) (timeout : Option String) (sock : Nat) : SState :=
  let q := ((alGet st.socktes listName).getD []) ++ [sock]
  let st2 := { st with socktes := alSet st.socktes listName q }
  let st3 :=
    if blpopTimeoutArmed timeout then { st2 with timers := st2.timers ++ [(listName, sock)] }
    else st2
  if q.length = 1 then { st3 with listeners := st3.listeners ++ [listName] } else st3

/-- Model of `handleBLpop` (part_002 lines 301-338).  The immediate-pop path
writes straight to the caller's socket; `shift()` on a stored string is a
thrown `TypeError`. -/
def handleBLpop (st : SState) (args : List String) (sock : Nat) : Except String SState :=
  let listName := jsKey args[0]?
  let timeout := args[1]?
  match alGet st.db listName with
  | some entry =>
    if vlenGtZero entry.value then
      match entry.value with
      | .list l =>
        .ok { st with
              db := alSet st.db listName ⟨.list l.tail, entry.expire⟩,
              writes := st.writes ++ [(sock, serialize (.varr [.vstr listName, jsValOfPop l.head?]))] }
      | _ => .error "TypeError: shift is not a function"
    else .ok (enqueueWaiter st listName timeout sock)
  | none => .ok (enqueueWaiter st listName timeout sock)

/-- Synchronous `emitter.emit("data:" + listName)` together with the body of
the `once` listener registered in `handleBLpop` (part_002 lines 322-336).
With no armed listener the emit is a no-op; otherwise the listener is
removed first (`once`), one socket and one list head are shifted, the
response is written if the socket exists, and the trailing conditional
re-emit recurses on the given fuel (the listener set is empty by then, so
that re-emit finds no listener — the lost-wakeup behaviour of the code). -/
def emitFire : Nat → SState → String → Except String SState
  | 0, st, _ => .ok st
  | fuel + 1, st, listName =>
    if listName ∈ st.listeners then
      let st1 := { st with listeners := st.listeners.erase listName }
      match alGet st1.socktes listName with
      | none => .error "TypeError: cannot read shift of undefined"
      | some socks =>
        let sockt := socks.head?
        let st2 := { st1 with socktes := alSet st1.socktes listName socks.tail }
        match alGet st2.db listName with
        | none => .error "TypeError: cannot read value of undefined"
        | some entry =>
          match entry.value with
          | .list l =>
            let st3 := { st2 with db := alSet st2.db listName ⟨.list l.tail, entry.expire⟩ }
            let st4 := match sockt with
              | some s =>
                { st3 with writes := st3.writes ++ [(s, serialize (.varr [.vstr listName, jsValOfPop l.head?]))] }
              | none => st3
            if 0 < socks.tail.length ∧ 0 < l.tail.length then emitFire fuel st4 listName
            else .ok st4
          | _ => .error "TypeError: shift is not a function"
    else .ok st

/-- Fuel handed to `emitFire`; large enough for every modelled trace. -/
def emitFuel : Nat := 8

/-- The event loop running one queued `setImmediate` callback (the
`() => this.emitter.emit(...)` scheduled by a push). -/
def runImmediate (st : SState) : Except String SState :=
  match st.pending with
  | [] => .ok st
  | k :: rest => emitFire emitFuel { st with pending := rest } k

/-- The `setTimeout` callback armed by `handleBLpop` (part_002 lines
315-319) firing: it deletes the key's whole socket queue, removes no
listener (`removeListener` is handed a fresh closure), and writes a Null
response to the captured socket with no check that the waiter was already
served. -/
def timerFire (st : SState) (listName : String) (sock : Nat) : SState :=
  { st with
    socktes := alDel st.socktes listName,
    timers := st.timers.erase (listName, sock),
    writes := st.writes ++ [(sock, serialize .vnull)] }

/-- Model of `handleCommand` (part_002 lines 382-391): dispatch on the
uppercased command name; an empty decoded array is a thrown `TypeError`
(`commandName.toUpperCase()` on `undefined`). -/
def handleCommand (now : Int) (st : SState) (command : List String) (sock : Nat) :
    Except String (Option String × SState) :=
  match command with
  | [] => .error "TypeError: cannot read toUpperCase of undefined"
  | commandName :: args =>
    match jsToUpper commandName with
    | "ECHO" => .ok (some (handleEcho args), st)
    | "PING" => .ok (some handlePing, st)
    | "SET" => let r := handleSet now st args; .ok (some r.1, r.2)
    | "GET" => let r := handleGet now st args; .ok (some r.1, r.2)
    | "RPUSH" => (handleRpush st args).map (fun r => (some r.1, r.2))
    | "LRANGE" => (handleLrange st args).map (fun r => (some r.1, r.2))
    | "LPUSH" => (handleLpush st args).map (fun r => (some r.1, r.2))
    | "LLEN" => let r := handleLlen st args; .ok (some r.1, r.2)
    | "LPOP" => (handleLpop st args).map (fun r => (some r.1, r.2))
    | "BLPOP" => (handleBLpop st args sock).map (fun st2 => (none, st2))
    | "INCR" => let r := handleIncr st args; .ok (some r.1, r.2)
    | _ => .ok (some ("-ERR unknown command \x27" ++ commandName ++ "\x27\r\n"), st)

/-! ## Concrete event-loop traces for the blocking-pop coordinator -/

/-- Trace: socket 1 issues `BLPOP k 5` on an empty store, another client
issues `RPUSH k x`, the scheduled emit runs, and later the 5-second deadline
timer fires.  The timer callback has no settled check, so the already
satisfied waiter is written to a second time. -/
def c3trace : Except String SState := do
  let s1 ← handleBLpop initState ["k", "5"] 1
  let r2 ← handleRpush s1 ["k", "x"]
  let s3 ← runImmediate r2.2
  pure (timerFire s3 "k" 1)

/-- Trace: sockets 1 and 2 both issue `BLPOP k 0`, then one client issues
`RPUSH k a b`, and the scheduled emit runs.  The `once` listener satisfies
socket 1 and re-emits, but the re-emit finds no registered listener, so
socket 2 is never served although `b` remains in the list. -/
def c4trace : Except String SState := do
  let s1 ← handleBLpop initState ["k", "0"] 1
  let s2 ← handleBLpop s1 ["k", "0"] 2
  let r3 ← handleRpush s2 ["k", "a", "b"]
  runImmediate r3.2

/-- Proof helper: the byte stream `serialize` produces for one bulk-string
request element (`$<len>\r\n<bytes>\r\n`). -/
def itemEnc (s : String) : List Char :=
  '$' :: (natToChars s.length ++ '\r' :: '\n' :: (s.data ++ ['\r', '\n']))

/-- Proof helper: the byte stream of a sequence of request elements. -/
def itemsChars : List String → List Char
  | [] => []
  | s :: rest => itemEnc s ++ itemsChars rest

/-- The normalised start index of `handleLrange`:
`if (start < 0) start = Math.max(value.length + start, 0)`. -/
def lrangeStart (len s : Int) : Int := if s < 0 then max (len + s) 0 else s

/-- The normalised end index of `handleLrange`:
`if (end < 0) end = value.length + end` — with no clamp at `0`. -/
def lrangeEnd (len e : Int) : Int := if e < 0 then len + e else e

/-! ## Claim-worded specification functions (for refutation only) -/

/-- The LRANGE semantics exactly as the claim words it: each negative index
`i` (start and end alike) is normalised to `max(L + i, 0)`, the end is
inclusive, and the result is empty when the normalised start is at or past
the length or start exceeds end.  This follows the claim's words, not the
code; `handleLrange` above is the code. -/
def lrangeClaimSpec (l : List String) (start endv : Int) : List String :=
  let len : Int := l.length
  let s2 := if start < 0 then max (len + start) 0 else start
  let e2 := if endv < 0 then max (len + endv) 0 else endv
  if s2 ≥ len ∨ s2 > e2 then []
  else (l.drop s2.toNat).take ((min (len - 1) e2 - s2 + 1).toNat)

/-! ## Store lemmas -/

theorem alGet_alSet_self {β : Type} (l : List (String × β)) (k : String) (v : β) :
    alGet (alSet l k v) k = some v := by
  induction l with
  | nil => simp [alGet, alSet]
  | cons h t ih =>
    by_cases hk : h.1 = k
    · simp [alGet, alSet, hk]
    · simp [alGet, alSet, hk, ih]

/-! ## Number-normalisation lemmas -/

theorem gcdAux_eq (f a b : Nat) (h : b < f) : gcdAux f a b = Nat.gcd b a := by
  induction f generalizing a b with
  | zero => omega
  | succ f ih =>
    by_cases hb : b = 0
    · subst hb; simp [gcdAux]
    · rw [show gcdAux (f + 1) a b = gcdAux f b (a % b) from by simp [gcdAux, hb]]
      rw [ih b (a % b) (by have := Nat.mod_lt a (Nat.pos_of_ne_zero hb); omega)]
      exact (Nat.gcd_rec b a).symm

theorem ngcd_eq (a b : Nat) : ngcd a b = Nat.gcd b a := gcdAux_eq _ a b (by omega)

theorem jnorm_eq_zero (n : Int) (d : Nat) (hd : 0 < d) (h : (jnorm n d).num = 0) :
    jnorm n d = ⟨0, 1⟩ := by
  have hgd : ngcd n.natAbs d = Nat.gcd d n.natAbs := ngcd_eq _ _
  have hg0 : ¬ ngcd n.natAbs d = 0 := by
    rw [hgd]; intro hc
    rcases Nat.gcd_eq_zero_iff.mp hc with ⟨h1, _⟩
    omega
  have hn : n = 0 := by
    by_contra hne
    have habs : 0 < n.natAbs := Int.natAbs_pos.mpr hne
    have hdvd : ngcd n.natAbs d ∣ n.natAbs := by
      rw [hgd]; exact Nat.gcd_dvd_right d n.natAbs
    have hle : ngcd n.natAbs d ≤ n.natAbs := Nat.le_of_dvd habs hdvd
    have hq : ¬ n.natAbs / ngcd n.natAbs d = 0 := by
      intro hc
      have := (Nat.div_eq_zero_iff (Nat.pos_of_ne_zero hg0)).mp hc
      omega
    simp only [jnorm, hg0, if_false] at h
    by_cases hneg : n < 0
    · rw [if_pos hneg] at h
      have h2 : -((n.natAbs / ngcd n.natAbs d : Nat) : Int) = 0 := h
      exact hq (by omega)
    · rw [if_neg hneg] at h
      have h2 : ((n.natAbs / ngcd n.natAbs d : Nat) : Int) = 0 := h
      exact hq (by omega)
  subst hn
  have hzero : ngcd (0 : Nat) d = d := by
    rw [ngcd_eq]; simp
  simp [jnorm, hzero, Nat.div_self hd, show ¬ d = 0 from by omega]

theorem jsNumMag_num_zero (cs : List Char) (q : JNum) (h : jsNumMag cs = some q)
    (h0 : q.num = 0) : q = ⟨0, 1⟩ := by
  unfold jsNumMag at h
  split at h
  · split at h
    · exact absurd h (by simp)
    · obtain rfl : (⟨(digitsVal (cs.takeWhile Char.isDigit) : Int), 1⟩ : JNum) = q :=
        Option.some.inj h
      simp only at h0
      simp only [show (digitsVal (cs.takeWhile Char.isDigit) : Int) = 0 from h0]
  · split at h
    · obtain rfl := Option.some.inj h
      exact jnorm_eq_zero _ _ (Nat.pos_pow_of_pos _ (by omega)) h0
    · exact absurd h (by simp)
  · exact absurd h (by simp)

theorem jsNumBody_num_zero (cs : List Char) (q : JNum) (h : jsNumBody cs = some q)
    (h0 : q.num = 0) : q = ⟨0, 1⟩ := by
  match cs with
  | [] =>
    rw [show jsNumBody [] = jsNumMag [] from rfl] at h
    exact jsNumMag_num_zero _ _ h h0
  | c :: t =>
    simp only [jsNumBody] at h
    split at h
    · rcases Option.map_eq_some'.mp h with ⟨q0, hq0, rfl⟩
      have : q0 = ⟨0, 1⟩ := jsNumMag_num_zero _ _ hq0 (by simpa [JNum.neg] using h0)
      simp [this, JNum.neg]
    · split at h
      · exact jsNumMag_num_zero _ _ h h0
      · exact jsNumMag_num_zero _ _ h h0

theorem jsNumber_num_zero (s : String) (q : JNum) (h : jsNumber s = some q)
    (h0 : q.num = 0) : q = ⟨0, 1⟩ := by
  unfold jsNumber jsNumberChars at h
  split at h
  · cases Option.some.inj h
    rfl
  · exact jsNumBody_num_zero _ _ h h0

/-! ## Digit-printing and parsing lemmas -/

theorem digitChar_isDigit (d : Nat) (h : d < 10) : (digitChar d).isDigit = true := by
  interval_cases d <;> decide

theorem digitChar_toNat (d : Nat) (h : d < 10) : (digitChar d).toNat = 48 + d := by
  interval_cases d <;> decide

theorem natToCharsAux_irrel (n : Nat) : ∀ f1 f2 : Nat, n < f1 → n < f2 →
    natToCharsAux f1 n = natToCharsAux f2 n := by
  induction n using Nat.strong_induction_on with
  | _ n ih =>
    intro f1 f2 h1 h2
    match f1, f2 with
    | fa + 1, fb + 1 =>
      by_cases hn : n < 10
      · simp [natToCharsAux, hn]
      · have hd : n / 10 < n := Nat.div_lt_self (by omega) (by omega)
        simp only [natToCharsAux, if_neg hn]
        rw [ih (n / 10) hd fa fb (by omega) (by omega)]

theorem natToChars_small (n : Nat) (h : n < 10) : natToChars n = [digitChar n] := by
  simp [natToChars, natToCharsAux, h]

theorem natToChars_step (n : Nat) (h : 10 ≤ n) :
    natToChars n = natToChars (n / 10) ++ [digitChar (n % 10)] := by
  have hd : n / 10 < n := Nat.div_lt_self (by omega) (by omega)
  rw [show natToChars n = natToCharsAux n (n / 10) ++ [digitChar (n % 10)] from by
    simp [natToChars, natToCharsAux, show ¬ n < 10 from by omega]]
  rw [natToChars, natToCharsAux_irrel (n / 10) n (n / 10 + 1) (by omega) (by omega)]

theorem natToChars_all_digit (n : Nat) : ∀ c ∈ natToChars n, c.isDigit = true := by
  induction n using Nat.strong_induction_on with
  | _ n ih =>
    by_cases h : n < 10
    · rw [natToChars_small n h]
      intro c hc
      rw [List.mem_singleton.mp hc]
      exact digitChar_isDigit n h
    · rw [natToChars_step n (by omega)]
      intro c hc
      rcases List.mem_append.mp hc with hc | hc
      · exact ih (n / 10) (Nat.div_lt_self (by omega) (by omega)) c hc
      · rw [List.mem_singleton.mp hc]
        exact digitChar_isDigit _ (Nat.mod_lt _ (by omega))

theorem natToChars_ne_nil (n : Nat) : natToChars n ≠ [] := by
  by_cases h : n < 10
  · rw [natToChars_small n h]; simp
  · rw [natToChars_step n (by omega)]; simp

theorem digitsVal_append (A : List Char) (c : Char) :
    digitsVal (A ++ [c]) = 10 * digitsVal A + (c.toNat - 48) := by
  simp [digitsVal, List.foldl_append]

theorem digitsVal_natToChars (n : Nat) : digitsVal (natToChars n) = n := by
  induction n using Nat.strong_induction_on with
  | _ n ih =>
    by_cases h : n < 10
    · rw [natToChars_small n h]
      simp [digitsVal, digitChar_toNat n h]
    · rw [natToChars_step n (by omega), digitsVal_append,
        ih (n / 10) (Nat.div_lt_self (by omega) (by omega)),
        digitChar_toNat _ (Nat.mod_lt _ (by omega))]
      omega

theorem takeWhile_all {p : Char → Bool} (L : List Char) (h : ∀ c ∈ L, p c = true) :
    L.takeWhile p = L := by
  induction L with
  | nil => rfl
  | cons c t ih =>
    rw [List.takeWhile_cons, if_pos (h c (List.mem_cons_self c t)),
      ih (fun x hx => h x (List.mem_cons_of_mem c hx))]

theorem isDigit_not_ws (c : Char) (h : c.isDigit = true) : isWsChar c = false := by
  by_contra hc
  simp only [isWsChar, Bool.not_eq_false, Bool.or_eq_true, decide_eq_true_eq] at hc
  rcases hc with ((((h1 | h1) | h1) | h1) | h1) | h1 <;> rw [h1] at h <;> exact absurd h (by decide)

theorem isDigit_ne_cr (c : Char) (h : c.isDigit = true) : ¬ c = '\r' := by
  intro hc; rw [hc] at h; exact absurd h (by decide)

theorem jsParseIntChars_natToChars (n : Nat) :
    jsParseIntChars (natToChars n) = some (n : Int) := by
  rcases hct : natToChars n with _ | ⟨c, t⟩
  · exact absurd hct (natToChars_ne_nil n)
  · have hall := natToChars_all_digit n
    rw [hct] at hall
    have hcd : c.isDigit = true := hall c (List.mem_cons_self c t)
    have hws : isWsChar c = false := isDigit_not_ws c hcd
    have hcm : ¬ c = '-' := fun hc => absurd hcd (by rw [hc]; decide)
    have hcp : ¬ c = '+' := fun hc => absurd hcd (by rw [hc]; decide)
    have htw : (c :: t).takeWhile Char.isDigit = c :: t := takeWhile_all _ hall
    have hdv : digitsVal (c :: t) = n := by rw [← hct]; exact digitsVal_natToChars n
    simp [jsParseIntChars, hct, List.dropWhile_cons, hws, hcm, hcp, digitsLead, htw, hdv]

theorem strData (a b : String) : (a ++ b).data = a.data ++ b.data := rfl

/-! ## Decoder positioning lemmas -/

theorem findCRLF0_concat (A B : List Char) (h : ∀ c ∈ A, ¬ c = '\r') :
    findCRLF0 (A ++ '\r' :: '\n' :: B) = some A.length := by
  induction A with
  | nil => simp [findCRLF0]
  | cons a t ih =>
    have ha : ¬ a = '\r' := h a (List.mem_cons_self a t)
    have ih2 := ih (fun c hc => h c (List.mem_cons_of_mem a hc))
    cases t with
    | nil => simp [findCRLF0, ha]
    | cons b t2 =>
      simp only [List.cons_append] at ih2 ⊢
      rw [show findCRLF0 (a :: b :: (t2 ++ '\r' :: '\n' :: B))
            = if a = '\r' ∧ b = '\n' then some 0
              else (findCRLF0 (b :: (t2 ++ '\r' :: '\n' :: B))).map (· + 1) from rfl]
      rw [if_neg (fun hc => ha hc.1), ih2]
      simp

theorem jsSubstring_exact (S P X T : List Char) (a b : Int)
    (hS : S = P ++ (X ++ T)) (ha : a = P.length) (hb : b = a + X.length) :
    jsSubstring S a b = X := by
  subst hS hb ha
  have hl : (P ++ (X ++ T)).length = P.length + X.length + T.length := by
    simp [List.length_append]; omega
  simp only [jsSubstring]
  have h1 : (min (max ((P.length : Nat) : Int) 0) ((P ++ (X ++ T)).length : Int)).toNat
      = P.length := by omega
  have h2 : (min (max (((P.length : Nat) : Int) + ((X.length : Nat) : Int)) 0)
        ((P ++ (X ++ T)).length : Int)).toNat = P.length + X.length := by omega
  rw [h1, h2]
  have hmin : min P.length (P.length + X.length) = P.length := by omega
  have hmax : max P.length (P.length + X.length) = P.length + X.length := by omega
  rw [hmin, hmax, List.drop_left]
  rw [show P.length + X.length - P.length = X.length from by omega]
  exact List.take_left X T

theorem findCRLF_exact (S P A T : List Char) (i : Int)
    (hS : S = P ++ (A ++ '\r' :: '\n' :: T)) (hi : i = P.length) (hA : ∀ c ∈ A, ¬ c = '\r') :
    findCRLF S i = some (A.length + P.length) := by
  subst hS hi
  simp only [findCRLF]
  rw [show ((P.length : Int)).toNat = P.length from by omega, List.drop_left,
    findCRLF0_concat A T hA]
  rfl

theorem readUntilCRLF_exact (S P A T : List Char) (i : Int)
    (hS : S = P ++ (A ++ '\r' :: '\n' :: T)) (hi : i = P.length) (hA : ∀ c ∈ A, ¬ c = '\r') :
    readUntilCRLF S i = .ok (A, ((A.length + P.length : Nat) : Int) + 2) := by
  simp only [readUntilCRLF, findCRLF_exact S P A T i hS hi hA]
  rw [jsSubstring_exact S P A ('\r' :: '\n' :: T) i ((A.length + P.length : Nat) : Int) hS hi
    (by rw [hi]; push_cast; ring)]

theorem exceptBindOk {ε α β : Type} (a : α) (f : α → Except ε β) :
    (Except.ok (ε := ε) a >>= f) = f a := rfl

theorem parseBulkString_exact (S P T bs : List Char) (i i2 : Int)
    (hS : S = P ++ (itemEnc (String.mk bs) ++ T)) (hi : i = P.length)
    (hi2 : i2 = ((P.length + (itemEnc (String.mk bs)).length : Nat) : Int)) :
    parseBulkString S i = .ok (bs, i2) := by
  have hlb : (String.mk bs).length = bs.length := rfl
  have hdb : (String.mk bs).data = bs := rfl
  have hS2 : S = P ++ (('$' :: natToChars bs.length)
      ++ '\r' :: '\n' :: (bs ++ '\r' :: '\n' :: T)) := by
    rw [hS]; simp [itemEnc, hlb, hdb, List.append_assoc]
  have hA : ∀ c ∈ ('$' :: natToChars bs.length), ¬ c = '\r' := by
    intro c hc
    rcases List.mem_cons.mp hc with rfl | hc
    · decide
    · exact isDigit_ne_cr c (natToChars_all_digit bs.length c hc)
  simp only [parseBulkString,
    readUntilCRLF_exact S P ('$' :: natToChars bs.length) (bs ++ '\r' :: '\n' :: T) i hS2 hi hA,
    exceptBindOk, List.length_cons, jsParseIntChars_natToChars, eq_self_iff_true, if_true]
  rw [jsSubstring_exact S (P ++ ('$' :: natToChars bs.length ++ ['\r', '\n'])) bs
      ('\r' :: '\n' :: T) _ _
      (by rw [hS2]; simp [List.append_assoc])
      (by simp [List.length_append]; ring)
      rfl]
  rw [if_pos (jsSubstring_exact S
      (P ++ ('$' :: natToChars bs.length ++ '\r' :: '\n' :: bs)) ['\r', '\n'] T _ _
      (by rw [hS2]; simp [List.append_assoc])
      (by simp [List.length_append]; ring)
      (by simp))]
  have hil : (itemEnc (String.mk bs)).length = (natToChars bs.length).length + bs.length + 5 := by
    simp [itemEnc, hlb, hdb, List.length_append]
    omega
  rw [hi2, hil]
  simp only [Except.ok.injEq, Prod.mk.injEq, true_and]
  push_cast
  ring

theorem decodeItems_exact (items : List String) : ∀ (S P : List Char) (i : Int),
    S = P ++ itemsChars items → i = P.length →
    decodeItems items.length S i = .ok (items.map String.data) := by
  induction items with
  | nil => intro S P i hS hi; simp [decodeItems]
  | cons s rest ih =>
    intro S P i hS hi
    have heta : String.mk s.data = s := rfl
    simp only [List.length_cons, decodeItems]
    rw [parseBulkString_exact S P (itemsChars rest) s.data i
        ((P.length + (itemEnc s).length : Nat) : Int)
        (by rw [hS]; simp [itemsChars, heta, List.append_assoc]) hi (by rw [heta]),
      exceptBindOk,
      ih S (P ++ itemEnc s) _ (by rw [hS]; simp [itemsChars, List.append_assoc])
        (by simp [List.length_append])]
    rfl

theorem serializeItems_data (l : List String) (h : ∀ s ∈ l, sigil s = false) :
    (serializeItems (l.map .vstr)).data = itemsChars l := by
  induction l with
  | nil => rfl
  | cons s rest ih =>
    have hs : sigil s = false := h s (List.mem_cons_self s rest)
    simp only [List.map_cons, serializeItems, strData]
    rw [ih (fun x hx => h x (List.mem_cons_of_mem s hx))]
    rw [show (serialize (.vstr s)).data = itemEnc s from by
      simp only [serialize, hs, Bool.false_eq_true, if_false, strData]
      rw [show (natStr s.length).data = natToChars s.length from rfl]
      simp [itemEnc, List.append_assoc]]
    rfl

/-! ## Claim theorems -/

/-- Claim C1 (counterexample): at exactly the expiry instant (`expiry ≤ now`
with `expiry = now`), the claim demands a Null reply and deletion, but the
code's `Date.now() > entry.expire` check keeps the entry and returns the
value. -/
theorem c1_counterexample :
    handleGet 1000 (handleSet 0 initState ["k", "v", "EX", "1"]).2 ["k"]
      = ("$1\r\nv\r\n", (handleSet 0 initState ["k", "v", "EX", "1"]).2) ∧
    ("$1\r\nv\r\n" : String) ≠ "$-1\r\n" := by decide

/-- Claim C1 (amended): after `SET k v EX n` at time `now0`, a GET at or
before the expiry instant `now0 + 1000 n` returns `v`, a GET strictly after
it deletes the entry and returns Null, and a GET of a never-set key returns
Null. -/
theorem c1_amended (st : SState) (now0 now1 : Int) (k v sArg : String) (n : Int)
    (hk : k ≠ "") (hv : v ≠ "") (hs : jsParseInt sArg = some n) (hn : 0 < n) :
    (handleSet now0 st [k, v, "EX", sArg]).1 = "+OK\r\n" ∧
    (now1 ≤ now0 + n * 1000 →
      handleGet now1 (handleSet now0 st [k, v, "EX", sArg]).2 [k]
        = (serialize (.vstr v), (handleSet now0 st [k, v, "EX", sArg]).2)) ∧
    (now0 + n * 1000 < now1 →
      handleGet now1 (handleSet now0 st [k, v, "EX", sArg]).2 [k]
        = ("$-1\r\n", { (handleSet now0 st [k, v, "EX", sArg]).2 with
                        db := alDel (handleSet now0 st [k, v, "EX", sArg]).2.db k })) ∧
    (∀ k2, alGet st.db k2 = none → handleGet now1 st [k2] = ("$-1\r\n", st)) := by
  have hset : handleSet now0 st [k, v, "EX", sArg]
      = ("+OK\r\n", { st with db := alSet st.db k ⟨.scalar v, some (now0 + n * 1000)⟩ }) := by
    simp +decide [handleSet, jsFalsyOpt, jsParseIntOpt, jsKey, hk, hv, hs,
      show ¬ n ≤ 0 from by omega]
  refine ⟨by rw [hset], ?_, ?_, ?_⟩
  · intro hle
    rw [hset]
    simp only [handleGet, jsKey]
    rw [show (([k] : List String)[0]?) = some k from rfl]
    simp only [alGet_alSet_self]
    simp [jsStringOfVal]
    omega
  · intro hlt
    rw [hset]
    simp only [handleGet, jsKey]
    rw [show (([k] : List String)[0]?) = some k from rfl]
    simp only [alGet_alSet_self]
    simp [jsStringOfVal]
    omega
  · intro k2 hk2
    simp [handleGet, jsKey, hk2]

/-- Claim C1 (witness): concrete SET/GET runs exercising all three cases of
`c1_amended`. -/
theorem c1_witness :
    handleGet 500 (handleSet 0 initState ["k", "v", "EX", "1"]).2 ["k"]
      = (serialize (.vstr "v"), (handleSet 0 initState ["k", "v", "EX", "1"]).2) ∧
    handleGet 1001 (handleSet 0 initState ["k", "v", "EX", "1"]).2 ["k"]
      = ("$-1\r\n", { (handleSet 0 initState ["k", "v", "EX", "1"]).2 with
                      db := alDel (handleSet 0 initState ["k", "v", "EX", "1"]).2.db "k" }) ∧
    handleGet 7 initState ["absent"] = ("$-1\r\n", initState) := by
  refine ⟨?_, ?_, ?_⟩
  · exact (c1_amended initState 0 500 "k" "v" "1" 1 (by decide) (by decide) (by decide)
      (by decide)).2.1 (by decide)
  · exact (c1_amended initState 0 1001 "k" "v" "1" 1 (by decide) (by decide) (by decide)
      (by decide)).2.2.1 (by decide)
  · exact (c1_amended initState 0 7 "k" "v" "1" 1 (by decide) (by decide) (by decide)
      (by decide)).2.2.2 "absent" (by decide)

/-- Claim C2: the dispatcher is not exception-free — `RPUSH` on a key
holding a scalar calls `push` on a string (a thrown `TypeError`), and `LPOP`
on a missing key reads `.value` of `undefined` (a thrown `TypeError`);
neither yields an error/Null response. -/
theorem c2_dispatcher_throws :
    handleCommand 0 ⟨[("k", ⟨.scalar "v", none⟩)], [], [], [], [], []⟩ ["RPUSH", "k", "x"] 7
      = .error "TypeError: push is not a function" ∧
    handleCommand 0 initState ["LPOP", "z"] 7
      = .error "TypeError: cannot read value of undefined" := by decide

/-- Claim C3: the waiter on socket 1 is satisfied by the push, yet the later
deadline-timer callback still writes a Null response to the same socket —
two responses are delivered to one waiter, so terminal states are not
idempotent. -/
theorem c3_double_delivery :
    c3trace.map SState.writes
      = .ok [(1, "*2\r\n$1\r\nk\r\n$1\r\nx\r\n"), (1, "$-1\r\n")] := by decide

/-- Claim C4: with two waiters and a push of two elements, only the first
waiter is served; the cascading re-emit fires after the `once` listener was
removed, so socket 2 stays queued although `"b"` remains in the list
(`min(N, W) = 2`, but only 1 waiter is satisfied). -/
theorem c4_lost_wakeup :
    c4trace.map (fun s => (s.writes, alGet s.socktes "k", alGet s.db "k"))
      = .ok ([(1, "*2\r\n$1\r\nk\r\n$1\r\na\r\n")], some [2], some ⟨.list ["b"], none⟩) := by decide

/-- Claim C8: `LPOP` on a missing key is a thrown `TypeError`, not a Null
reply; and `LPOP` without a count on an existing empty list serializes
`undefined` into an unsupported-type error, again not a Null reply. -/
theorem c8_lpop_missing_key_throws :
    handleLpop initState ["z"] = .error "TypeError: cannot read value of undefined" ∧
    handleLpop ⟨[("l", ⟨.list [], none⟩)], [], [], [], [], []⟩ ["l"]
      = .ok ("-ERR Unsupported data type\r\n",
             ⟨[("l", ⟨.list [], none⟩)], [], [], [], [], []⟩) := by decide

/-- Claim C6 (counterexample): `LPUSH l a b c` on a fresh store leaves the
list `[c, b, a]`, not the claimed `[a, b, c]`. -/
theorem c6_counterexample :
    handleLpush initState ["l", "a", "b", "c"]
      = .ok (":3\r\n", ⟨[("l", ⟨.list ["c", "b", "a"], none⟩)], [], [], [], [], []⟩) ∧
    (["c", "b", "a"] : List String) ≠ ["a", "b", "c"] := by decide

/-- Claim C6 (amended): `LPUSH key vs` prepends the values as a block in
reversed call order — the resulting list is `vs.reverse ++ prior` (the list
is created when absent) — and returns the new length. -/
theorem c6_amended (st : SState) (k : String) (vs : List String)
    (hw : alGet st.socktes k = none) :
    (alGet st.db k = none →
      handleLpush st (k :: vs)
        = .ok (serialize (.vnum (.ofNat vs.reverse.length)),
               { st with db := alSet st.db k ⟨.list vs.reverse, none⟩ })) ∧
    (∀ l0 ex, alGet st.db k = some ⟨.list l0, ex⟩ →
      handleLpush st (k :: vs)
        = .ok (serialize (.vnum (.ofNat (vs.reverse ++ l0).length)),
               { st with db := alSet st.db k ⟨.list (vs.reverse ++ l0), ex⟩ })) := by
  constructor
  · intro h
    simp [handleLpush, jsKey, h, notifyPush, hw]
  · intro l0 ex h
    simp [handleLpush, jsKey, h, notifyPush, hw]

/-- Claim C6 (witness): `c6_amended` at a fresh store and at a store holding
a prior list. -/
theorem c6_witness :
    handleLpush initState ["l", "a", "b"]
      = .ok (":2\r\n", ⟨[("l", ⟨.list ["b", "a"], none⟩)], [], [], [], [], []⟩) ∧
    handleLpush ⟨[("l", ⟨.list ["x"], none⟩)], [], [], [], [], []⟩ ["l", "a", "b"]
      = .ok (":3\r\n", ⟨[("l", ⟨.list ["b", "a", "x"], none⟩)], [], [], [], [], []⟩) := by
  constructor
  · exact ((c6_amended initState "l" ["a", "b"] (by decide)).1 (by decide)).trans (by decide)
  · exact ((c6_amended ⟨[("l", ⟨.list ["x"], none⟩)], [], [], [], [], []⟩ "l" ["a", "b"]
      (by decide)).2 ["x"] none (by decide)).trans (by decide)

theorem jsSliceList_eq_take_drop {α : Type} (l : List α) (a b : Int)
    (ha0 : 0 ≤ a) (hal : a ≤ (l.length : Int)) (hb0 : 0 ≤ b) (hbl : b ≤ (l.length : Int)) :
    jsSliceList l a b = (l.drop a.toNat).take (b.toNat - a.toNat) := by
  simp only [jsSliceList]
  have h1 : (if a < 0 then max ((l.length : Int) + a) 0 else min a (l.length : Int)) = a := by
    rw [if_neg (by omega)]; omega
  have h2 : (if b < 0 then max ((l.length : Int) + b) 0 else min b (l.length : Int)) = b := by
    rw [if_neg (by omega)]; omega
  rw [h1, h2]

/-- Claim C5 (counterexample): on the one-element list `["a"]`,
`LRANGE l 0 -2` returns the empty array, while the claim's normalisation
`end = max(L + end, 0) = 0` would demand the slice `["a"]`. -/
theorem c5_counterexample :
    handleLrange ⟨[("l", ⟨.list ["a"], none⟩)], [], [], [], [], []⟩ ["l", "0", "-2"]
      = .ok (serialize (.varr []), ⟨[("l", ⟨.list ["a"], none⟩)], [], [], [], [], []⟩) ∧
    lrangeClaimSpec ["a"] 0 (-2) = ["a"] ∧
    serialize (.varr ((lrangeClaimSpec ["a"] 0 (-2)).map .vstr)) ≠ serialize (.varr []) := by
  decide

/-- Claim C5 (amended): `LRANGE` normalises a negative start to
`max(L + start, 0)` but a negative end to `L + end` with no clamp at zero
(so an end still negative after normalisation yields the empty array via
`start > end`); the end is inclusive, a missing key or `start ≥ L` or
`start > end` give the empty array, and otherwise the slice runs from start
through `min(L - 1, end)` inclusive, in original order. -/
theorem c5_amended (st : SState) (k a1 a2 : String) (s e : Int) (l : List String)
    (ex : Option Int) (hk : k ≠ "") (h1 : jsParseInt a1 = some s) (h2 : jsParseInt a2 = some e) :
    (alGet st.db k = none → handleLrange st [k, a1, a2] = .ok (serialize (.varr []), st)) ∧
    (alGet st.db k = some ⟨.list l, ex⟩ →
      (lrangeStart l.length s ≥ (l.length : Int) ∨
          lrangeStart l.length s > lrangeEnd l.length e →
        handleLrange st [k, a1, a2] = .ok (serialize (.varr []), st)) ∧
      (lrangeStart l.length s < (l.length : Int) →
        lrangeStart l.length s ≤ lrangeEnd l.length e →
        handleLrange st [k, a1, a2]
          = .ok (serialize (.varr (((l.drop (lrangeStart l.length s).toNat).take
              ((min ((l.length : Int) - 1) (lrangeEnd l.length e)
                  - lrangeStart l.length s + 1).toNat)).map .vstr)), st))) := by
  have hfals : jsFalsyOpt (some k) = false := by simp [jsFalsyOpt, hk]
  refine ⟨?_, ?_⟩
  · intro h
    simp [handleLrange, hfals, jsParseIntOpt, h1, h2, jsKey, h]
  · intro h
    have ha0 : 0 ≤ lrangeStart l.length s := by
      simp only [lrangeStart]; split <;> omega
    constructor
    · intro hcase
      simp only [lrangeStart, lrangeEnd] at hcase
      simp only [handleLrange, hfals, Bool.false_eq_true, if_false,
        List.getElem?_cons_zero, List.getElem?_cons_succ, jsParseIntOpt, h1, h2, jsKey]
      rw [h]
      simp only []
      rw [if_pos hcase]
    · intro hlt hle
      have hb0 : 0 ≤ min ((l.length : Int)) (lrangeEnd l.length e + 1) := by omega
      have hbl : min ((l.length : Int)) (lrangeEnd l.length e + 1) ≤ (l.length : Int) := by omega
      have hslice := jsSliceList_eq_take_drop l (lrangeStart l.length s)
        (min ((l.length : Int)) (lrangeEnd l.length e + 1)) ha0 (by omega) hb0 hbl
      have hcount : (min ((l.length : Int)) (lrangeEnd l.length e + 1)).toNat
            - (lrangeStart l.length s).toNat
          = (min ((l.length : Int) - 1) (lrangeEnd l.length e)
              - lrangeStart l.length s + 1).toNat := by omega
      simp only [handleLrange, hfals, Bool.false_eq_true, if_false,
        List.getElem?_cons_zero, List.getElem?_cons_succ, jsParseIntOpt, h1, h2, jsKey]
      rw [h]
      simp only []
      rw [if_neg (by simp only [lrangeStart, lrangeEnd] at hlt hle ⊢; omega)]
      rw [show (if s < 0 then max ((l.length : Int) + s) 0 else s) = lrangeStart l.length s
            from rfl,
          show (if e < 0 then (l.length : Int) + e else e) = lrangeEnd l.length e from rfl,
          hslice, hcount]

/-- Claim C5 (witness): `c5_amended` on `["a","b","c"]` for the spec's two
examples and for a missing key. -/
theorem c5_witness :
    handleLrange ⟨[("l", ⟨.list ["a", "b", "c"], none⟩)], [], [], [], [], []⟩ ["l", "0", "-1"]
      = .ok ("*3\r\n$1\r\na\r\n$1\r\nb\r\n$1\r\nc\r\n",
             ⟨[("l", ⟨.list ["a", "b", "c"], none⟩)], [], [], [], [], []⟩) ∧
    handleLrange ⟨[("l", ⟨.list ["a", "b", "c"], none⟩)], [], [], [], [], []⟩ ["l", "-2", "-1"]
      = .ok ("*2\r\n$1\r\nb\r\n$1\r\nc\r\n",
             ⟨[("l", ⟨.list ["a", "b", "c"], none⟩)], [], [], [], [], []⟩) ∧
    handleLrange initState ["nope", "0", "-1"] = .ok ("*0\r\n", initState) := by
  refine ⟨?_, ?_, ?_⟩
  · exact (((c5_amended ⟨[("l", ⟨.list ["a", "b", "c"], none⟩)], [], [], [], [], []⟩
      "l" "0" "-1" 0 (-1) ["a", "b", "c"] none (by decide) (by decide) (by decide)).2
      (by decide)).2 (by decide) (by decide)).trans (by decide)
  · exact (((c5_amended ⟨[("l", ⟨.list ["a", "b", "c"], none⟩)], [], [], [], [], []⟩
      "l" "-2" "-1" (-2) (-1) ["a", "b", "c"] none (by decide) (by decide) (by decide)).2
      (by decide)).2 (by decide) (by decide)).trans (by decide)
  · exact ((c5_amended initState "nope" "0" "-1" 0 (-1) [] none (by decide) (by decide)
      (by decide)).1 (by decide)).trans (by decide)

/-- Claim C7 (counterexample): `INCR` on a key holding the scalar `"3.5"`,
which does not parse as an integer, does not fail — it stores `4.5` and
replies `:4.5`, changing the stored value. -/
theorem c7_counterexample :
    handleIncr ⟨[("k", ⟨.scalar "3.5", none⟩)], [], [], [], [], []⟩ ["k"]
      = (":4.5\r\n", ⟨[("k", ⟨.num ⟨9, 2⟩, none⟩)], [], [], [], [], []⟩) ∧
    (":4.5\r\n" : String) ≠ serialize (.vstr "-ERR value is not an integer or out of range") ∧
    (⟨[("k", ⟨.num ⟨9, 2⟩, none⟩)], [], [], [], [], []⟩ : SState)
      ≠ ⟨[("k", ⟨.scalar "3.5", none⟩)], [], [], [], [], []⟩ := by decide

/-- Claim C7 (amended): `INCR` on an absent key returns 1; it fails with the
not-an-integer error (leaving the store unchanged) exactly when the existing
scalar does not parse as a JavaScript number; a scalar parsing as any
number, integer or not, is incremented by 1, stored as a number with no
expiry, and the new value returned. -/
theorem c7_amended (st : SState) (k : String) :
    (alGet st.db k = none →
      handleIncr st [k] = (serialize (.vnum 1), { st with db := alSet st.db k ⟨.num 1, none⟩ })) ∧
    (∀ s ex, alGet st.db k = some ⟨.scalar s, ex⟩ → jsNumber s = none →
      handleIncr st [k]
        = (serialize (.vstr "-ERR value is not an integer or out of range"), st)) ∧
    (∀ s ex q, alGet st.db k = some ⟨.scalar s, ex⟩ → jsNumber s = some q →
      handleIncr st [k]
        = (serialize (.vnum q.succ), { st with db := alSet st.db k ⟨.num q.succ, none⟩ })) := by
  refine ⟨?_, ?_, ?_⟩
  · intro h
    simp [handleIncr, jsKey, h]
  · intro s ex h hnan
    simp [handleIncr, jsKey, h, jsNumberOfVal, hnan]
  · intro s ex q h hq
    simp only [handleIncr, jsKey]
    rw [show (([k] : List String)[0]?) = some k from rfl, h]
    simp only [jsNumberOfVal, hq]
    by_cases hz : q.isZero
    · have hq01 : q = ⟨0, 1⟩ := jsNumber_num_zero s q hq (by simpa [JNum.isZero] using hz)
      subst hq01
      simp +decide [JNum.succ]
      rfl
    · simp [hz]

/-- Claim C7 (witness): `c7_amended` at an absent key, at a non-numeric
scalar, and at an integer scalar. -/
theorem c7_witness :
    handleIncr initState ["k"] = (":1\r\n", ⟨[("k", ⟨.num 1, none⟩)], [], [], [], [], []⟩) ∧
    handleIncr ⟨[("k", ⟨.scalar "abc", none⟩)], [], [], [], [], []⟩ ["k"]
      = ("-ERR value is not an integer or out of range\r\n",
         ⟨[("k", ⟨.scalar "abc", none⟩)], [], [], [], [], []⟩) ∧
    handleIncr ⟨[("k", ⟨.scalar "41", none⟩)], [], [], [], [], []⟩ ["k"]
      = (":42\r\n", ⟨[("k", ⟨.num ⟨42, 1⟩, none⟩)], [], [], [], [], []⟩) := by
  refine ⟨?_, ?_, ?_⟩
  · exact ((c7_amended initState "k").1 (by decide)).trans (by decide)
  · exact ((c7_amended ⟨[("k", ⟨.scalar "abc", none⟩)], [], [], [], [], []⟩ "k").2.1
      "abc" none (by decide) (by decide)).trans (by decide)
  · exact ((c7_amended ⟨[("k", ⟨.scalar "41", none⟩)], [], [], [], [], []⟩ "k").2.2
      "41" none ⟨41, 1⟩ (by decide) (by decide)).trans (by decide)

/-- Claim C9 (counterexample): the element `"-a"` is a byte string, hence
encodable as a request element, but `serialize` emits it verbatim (the
simple-string/error sigil asymmetry), so decoding the encoding of `["-a"]`
throws instead of returning `["-a"]`. -/
theorem c9_counterexample :
    parserSerializeString (serialize (.varr [.vstr "-a"]))
      = .error "Expected bulk string header, but got: -a" ∧
    parserSerializeString (serialize (.varr [.vstr "-a"])) ≠ .ok ["-a"] := by decide

/-- Claim C9 (amended): decode after encode is the identity on every request
value (array of byte strings) in which no element begins with `+` or `-`;
elements with those sigils are emitted without a length prefix and do not
round-trip. -/
theorem c9_amended (l : List String) (h : ∀ s ∈ l, sigil s = false) :
    parserSerializeString (serialize (.varr (l.map .vstr))) = .ok l := by
  have hdata : (serialize (.varr (l.map .vstr))).data
      = ('*' :: natToChars l.length) ++ '\r' :: '\n' :: itemsChars l := by
    simp only [serialize, strData]
    rw [show (natStr (l.map JsVal.vstr).length).data
          = natToChars (l.map JsVal.vstr).length from rfl]
    rw [serializeItems_data l h]
    simp [List.length_map, List.append_assoc]
  have hA : ∀ c ∈ ('*' :: natToChars l.length), ¬ c = '\r' := by
    intro c hc
    rcases List.mem_cons.mp hc with rfl | hc
    · decide
    · exact isDigit_ne_cr c (natToChars_all_digit l.length c hc)
  simp only [parserSerializeString,
    readUntilCRLF_exact (serialize (.varr (l.map .vstr))).data [] ('*' :: natToChars l.length)
      (itemsChars l) 0 (by rw [hdata]; rfl) (by simp) hA,
    exceptBindOk, eq_self_iff_true, if_true, jsParseIntChars_natToChars]
  rw [show ((l.length : Int)).toNat = l.length from by omega]
  rw [decodeItems_exact l (serialize (.varr (l.map .vstr))).data
      ('*' :: natToChars l.length ++ ['\r', '\n']) _
      (by rw [hdata]; simp [List.append_assoc])
      (by simp [List.length_append]; ring)]
  rw [show Except.map (fun L => L.map String.mk)
        (Except.ok (ε := String) (l.map String.data))
      = .ok ((l.map String.data).map String.mk) from rfl]
  rw [List.map_map]
  rw [show (String.mk ∘ String.data) = id from funext fun s => rfl, List.map_id]

/-- Claim C9 (witness): a concrete `SET` request round-trips. -/
theorem c9_witness :
    parserSerializeString (serialize (.varr (["SET", "mykey", "myvalue"].map .vstr)))
      = .ok ["SET", "mykey", "myvalue"] :=
  c9_amended ["SET", "mykey", "myvalue"] (by decide)

/-- Claim C10: `SET` with an empty key or an empty value is rejected by the
falsiness check `!key || !value` with the wrong-number-of-arguments error,
leaving the store untouched, even though both arguments are present. -/
theorem c10_empty_set_rejected (now : Int) (st : SState) (k v : String) (rest : List String)
    (h : k = "" ∨ v = "") :
    handleSet now st (k :: v :: rest)
      = ("-ERR wrong number of arguments for \x27set\x27 command\r\n", st) := by
  rcases h with h | h <;> subst h <;> simp [handleSet, jsFalsyOpt]

/-- Claim C10 (witness): both the empty-key and the empty-value rejection at
concrete arguments. -/
theorem c10_witness :
    handleSet 0 initState ["", "v"]
      = ("-ERR wrong number of arguments for \x27set\x27 command\r\n", initState) ∧
    handleSet 0 initState ["k", "", "EX", "10"]
      = ("-ERR wrong number of arguments for \x27set\x27 command\r\n", initState) :=
  ⟨c10_empty_set_rejected 0 initState "" "v" [] (Or.inl rfl),
   c10_empty_set_rejected 0 initState "k" "" ["EX", "10"] (Or.inr rfl)⟩

end Redis

